import Mathlib

/-!
Shallow embedding of the `SoundEngine` class of `src/app.js`
(Study-Room-Focus-Simulator).

The engine owns five sound channels (`rain`, `alpha`, `theta`, `beta`,
`gamma`), each a record `{ playing : Bool, nodes : List Node }`, plus a
single `currentPlayingSound : Option Channel` memory slot.  Audio-graph
nodes are modelled as an inductive type carrying the parameters the
source sets on them; the `connect` calls issued while building a
channel's graph are recorded as an edge list over the indices of the
freshly constructed nodes (index into the list in push order), with the
shared `audioContext.destination` as a distinguished target.

The browser `AudioContext` (`initAudioContext`) only gates audibility,
never the channel bookkeeping, so it is not part of the state.  The
UI-held volume sliders (`document.getElementById(name + "Volume")`) are
modelled as an environment `Channel → Option Int`; `getVolume` applies
the source's default of 70 when the slider is absent.  DOM status-text
updates are side effects outside the engine state and are dropped.
-/

/-- The five channel names, the keys of `this.sounds` in declaration
order (`app.js` lines 7-13). -/
inductive Channel where
  | rain
  | alpha
  | theta
  | beta
  | gamma
deriving DecidableEq, Repr, Fintype

/-- An audio-graph node, carrying the parameters the source assigns at
construction time.  `gain` holds `gain.value`, `oscillator` holds
`frequency.value` and `type`, `stereoPanner` holds `pan.value`,
`scriptProcessor` holds its buffer size. -/
inductive Node where
  | scriptProcessor (bufferSize : Nat)
  | gain (value : ℚ)
  | oscillator (frequency : ℚ) (waveType : String)
  | stereoPanner (pan : ℚ)
deriving DecidableEq, Repr

/-- Target of a `connect` call: another freshly built node (by its index
in push order) or the shared `audioContext.destination`. -/
inductive ConnTarget where
  | node (idx : Nat)
  | dest
deriving DecidableEq, Repr

/-- The nodes a construction routine pushes onto `sound.nodes`, in push
order, together with the `connect` calls it issues among them. -/
structure BuiltGraph where
  nodes : List Node
  edges : List (Nat × ConnTarget)
deriving DecidableEq, Repr

/-- Per-channel record `{ playing, nodes }` (`app.js` line 8). -/
structure SoundState where
  playing : Bool
  nodes : List Node
deriving DecidableEq, Repr

/-- The `this.sounds` object: one record per channel. -/
structure Sounds where
  rain : SoundState
  alpha : SoundState
  theta : SoundState
  beta : SoundState
  gamma : SoundState
deriving DecidableEq, Repr

/-- `this.sounds[soundName]` lookup. -/
def getSound (s : Sounds) : Channel → SoundState
  | .rain => s.rain
  | .alpha => s.alpha
  | .theta => s.theta
  | .beta => s.beta
  | .gamma => s.gamma

/-- Assignment `this.sounds[soundName] = v` (mutation of one channel's
record, the others untouched). -/
def setSound (s : Sounds) : Channel → SoundState → Sounds
  | .rain, v => { s with rain := v }
  | .alpha, v => { s with alpha := v }
  | .theta, v => { s with theta := v }
  | .beta, v => { s with beta := v }
  | .gamma, v => { s with gamma := v }

/-- Engine state: the channel registry and the "last played" memory
`this.currentPlayingSound` (`app.js` line 14). -/
structure Engine where
  sounds : Sounds
  currentPlayingSound : Option Channel
deriving DecidableEq, Repr

/-- The fresh engine built by the constructor: every channel stopped
with no nodes, no "last played" memory. -/
def initEngine : Engine :=
  { sounds :=
      { rain := { playing := false, nodes := [] }
        alpha := { playing := false, nodes := [] }
        theta := { playing := false, nodes := [] }
        beta := { playing := false, nodes := [] }
        gamma := { playing := false, nodes := [] } }
    currentPlayingSound := none }

/-- `Object.keys(this.sounds)` in insertion order, the order the
`forEach` loops of `stopAllSounds` and `pauseSounds` iterate. -/
def channelList : List Channel :=
  [.rain, .alpha, .theta, .beta, .gamma]

/-- The UI-held volume sliders: `some v` when the slider element exists
with integer value `v`, `none` when absent. -/
def VolumeEnv : Type := Channel → Option Int

/-- `getVolume(soundName)` (`app.js` lines 158-161): read the slider,
default 70 when the element is missing. -/
def getVolume (env : VolumeEnv) (soundName : Channel) : Int :=
  (env soundName).getD 70

/-- `createRainSound` (`app.js` lines 81-105): a gain node at
`(volume/100) * 0.3` connected to the destination, fed by a 4096-sample
script processor.  Push order: `brownNoise, gainNode`. -/
def createRainSound (env : VolumeEnv) : BuiltGraph :=
  let volume : ℚ := (getVolume env .rain : ℚ) / 100
  let gainNode := Node.gain (volume * 0.3)
  let brownNoise := Node.scriptProcessor 4096
  { nodes := [brownNoise, gainNode]
    edges := [(1, .dest), (0, .node 1)] }

/-- `createBinauralBeat(sound, frequency)` (`app.js` lines 107-144).
The source looks the volume up with
`sound === this.sounds.alpha ? 'alpha' : 'theta'`: the channel record
objects are distinct, so the identity test holds exactly for the alpha
channel; every other binaural channel reads the theta slider.  Push
order: `leftOsc, rightOsc, leftPanner, rightPanner, gainNode`; connect
calls: gain→destination, leftOsc→leftPanner, rightOsc→rightPanner,
leftPanner→gain, rightPanner→gain. -/
def createBinauralBeat (env : VolumeEnv) (c : Channel) (frequency : ℚ) : BuiltGraph :=
  let volume : ℚ :=
    (getVolume env (if c = Channel.alpha then Channel.alpha else Channel.theta) : ℚ) / 100
  let gainNode := Node.gain (volume * 0.2)
  let baseFreq : ℚ := 200
  let leftOsc := Node.oscillator baseFreq "sine"
  let rightOsc := Node.oscillator (baseFreq + frequency) "sine"
  let leftPanner := Node.stereoPanner (-1)
  let rightPanner := Node.stereoPanner 1
  { nodes := [leftOsc, rightOsc, leftPanner, rightPanner, gainNode]
    edges := [(4, .dest), (0, .node 2), (1, .node 3), (2, .node 4), (3, .node 4)] }

/-- The per-channel dispatch of `playSound` (`app.js` lines 44-55):
which construction routine runs, with which beat frequency. -/
def playGraph (env : VolumeEnv) : Channel → BuiltGraph
  | .rain => createRainSound env
  | .alpha => createBinauralBeat env .alpha 10
  | .theta => createBinauralBeat env .theta 6
  | .beta => createBinauralBeat env .beta 20
  | .gamma => createBinauralBeat env .gamma 40

/-- `playSound(soundName)` (`app.js` lines 40-58): build the channel's
graph, push its nodes onto `sound.nodes`, set `playing = true`. -/
def playSound (env : VolumeEnv) (st : Engine) (soundName : Channel) : Engine :=
  let sound := getSound st.sounds soundName
  { st with
      sounds := setSound st.sounds soundName
        { playing := true, nodes := sound.nodes ++ (playGraph env soundName).nodes } }

/-- `stopSound(soundName)` (`app.js` lines 60-79): halt and disconnect
every node (an already-halted node is tolerated via try/catch), then
`sound.nodes = []`, `sound.playing = false`.  Halting/disconnecting has
no effect on the engine record, so only the clearing remains. -/
def stopSound (st : Engine) (soundName : Channel) : Engine :=
  { st with
      sounds := setSound st.sounds soundName { playing := false, nodes := [] } }

/-- `toggleSound(soundName)` (`app.js` lines 27-38): stop if playing,
start otherwise; returns the channel's `playing` flag read after the
mutation. -/
def toggleSound (env : VolumeEnv) (st : Engine) (soundName : Channel) : Engine × Bool :=
  let sound := getSound st.sounds soundName
  let st1 := if sound.playing then stopSound st soundName else playSound env st soundName
  (st1, (getSound st1.sounds soundName).playing)

/-- `setVolume(soundName, volume)` (`app.js` lines 146-156): only when
the channel is playing with a non-empty node list, take the last node
and — when it is a gain node (the only node kind with a `gain`
property) — rewrite its gain to `(volume/100) * multiplier`, multiplier
0.3 for rain and 0.2 otherwise. -/
def setVolume (st : Engine) (soundName : Channel) (volume : ℚ) : Engine :=
  let sound := getSound st.sounds soundName
  if sound.playing ∧ 0 < sound.nodes.length then
    match sound.nodes.getLast? with
    | some (Node.gain _) =>
        let multiplier : ℚ := if soundName = Channel.rain then 0.3 else 0.2
        { st with
            sounds := setSound st.sounds soundName
              { sound with
                  nodes := sound.nodes.dropLast
                    ++ [Node.gain ((volume / 100) * multiplier)] } }
    | _ => st
  else st

/-- Loop body of the `forEach` in `stopAllSounds` (`app.js` lines
165-174): stop the channel when it is playing, otherwise skip it. -/
def stopIfPlaying (s : Engine) (soundName : Channel) : Engine :=
  if (getSound s.sounds soundName).playing then stopSound s soundName else s

/-- `stopAllSounds` (`app.js` lines 163-176): stop every playing
channel in key order, then clear the "last played" memory. -/
def stopAllSounds (st : Engine) : Engine :=
  let st1 := channelList.foldl stopIfPlaying st
  { st1 with currentPlayingSound := none }

/-- Loop body of the `forEach` in `pauseSounds` (`app.js` lines
180-190): when the channel is playing, record it as
`currentPlayingSound` and stop it; otherwise skip it. -/
def pauseStep (s : Engine) (soundName : Channel) : Engine :=
  if (getSound s.sounds soundName).playing then
    stopSound { s with currentPlayingSound := some soundName } soundName
  else s

/-- `pauseSounds` (`app.js` lines 178-191): for each playing channel in
key order, record it as `currentPlayingSound`, then stop it.  The
memory is not cleared. -/
def pauseSounds (st : Engine) : Engine :=
  channelList.foldl pauseStep st

/-- `resumeSounds` (`app.js` lines 193-204): when a "last played"
channel is recorded, toggle it and pass the returned `playing` flag to
the status display (`some flag`); otherwise do nothing (`none`). -/
def resumeSounds (env : VolumeEnv) (st : Engine) : Engine × Option Bool :=
  match st.currentPlayingSound with
  | some soundName =>
      let r := toggleSound env st soundName
      (r.1, some r.2)
  | none => (st, none)

/-- One step of the brown-noise filter in the `onaudioprocess` callback
(`app.js` line 97): `output[i] = (lastOut + 0.02 * white) / 1.02`. -/
def rainStep (lastOut white : ℚ) : ℚ :=
  (lastOut + 0.02 * white) / 1.02

/-- The filter state after `n` samples of input stream `x`, from the
initial `let lastOut = 0.0` (`app.js` line 91): the value assigned to
`lastOut` after the `n`-th iteration, before the 3.5 output scaling. -/
def rainFilter (x : ℕ → ℚ) : ℕ → ℚ
  | 0 => 0
  | n + 1 => rainStep (rainFilter x n) (x (n + 1))

/-- Whether a node is an oscillator. -/
def Node.isOscillator : Node → Bool
  | .oscillator _ _ => true
  | _ => false

/-- The spec's per-channel state invariant: a channel is flagged playing
exactly when it owns live nodes. -/
def soundInv (s : SoundState) : Prop :=
  s.playing = true ↔ s.nodes ≠ []

/-- The invariant on every channel of the engine. -/
def engineInv (st : Engine) : Prop :=
  ∀ c, soundInv (getSound st.sounds c)

/-- A volume environment with every slider absent: `getVolume` falls
back to the default 70 on all channels. -/
def defaultEnv : VolumeEnv := fun _ => none

/-- Volume environment with the beta slider at 50 and the theta slider
at 30, the rest absent. -/
def c1env : VolumeEnv := fun c =>
  match c with
  | .beta => some 50
  | .theta => some 30
  | _ => none

/-- A fresh engine whose "last played" memory already records the rain
channel (as the start-button handler or an earlier pause leaves it)
while every channel is stopped. -/
def rainRemembered : Engine :=
  { initEngine with currentPlayingSound := some Channel.rain }

/-- An engine in which exactly the rain channel is playing. -/
def rainPlaying : Engine :=
  { sounds :=
      { initEngine.sounds with
          rain := { playing := true, nodes := [Node.gain 1] } }
    currentPlayingSound := none }

/-- What a binaural construction for beat frequency `f` must look like:
exactly two oscillators among the built nodes; the first (left) a sine
at 200 Hz, the second (right) a sine at `200 + f` Hz, so right minus
left is exactly `f`; the left oscillator (index 0) connected to the
panner at index 2 whose pan is `-1`, the right (index 1) to the panner
at index 3 whose pan is `+1`. -/
def binauralBuildSpec (g : BuiltGraph) (f : ℚ) : Prop :=
  (g.nodes.filter Node.isOscillator).length = 2 ∧
  g.nodes.get? 0 = some (Node.oscillator 200 "sine") ∧
  g.nodes.get? 1 = some (Node.oscillator (200 + f) "sine") ∧
  (200 + f) - 200 = f ∧
  g.nodes.get? 2 = some (Node.stereoPanner (-1)) ∧
  g.nodes.get? 3 = some (Node.stereoPanner 1) ∧
  (0, ConnTarget.node 2) ∈ g.edges ∧
  (1, ConnTarget.node 3) ∈ g.edges

/-! ## Basic lemmas about channel lookup and update -/

theorem getSound_setSound_self (s : Sounds) (c : Channel) (v : SoundState) :
    getSound (setSound s c v) c = v := by
  cases c <;> rfl

theorem getSound_setSound_of_ne (s : Sounds) (c c' : Channel) (v : SoundState)
    (h : c' ≠ c) : getSound (setSound s c v) c' = getSound s c' := by
  cases c <;> cases c' <;> first | rfl | exact absurd rfl h

theorem playSound_getSound_self (env : VolumeEnv) (st : Engine) (c : Channel) :
    getSound (playSound env st c).sounds c =
      { playing := true,
        nodes := (getSound st.sounds c).nodes ++ (playGraph env c).nodes } := by
  simp [playSound, getSound_setSound_self]

theorem playSound_getSound_of_ne (env : VolumeEnv) (st : Engine) (c c' : Channel)
    (h : c' ≠ c) : getSound (playSound env st c).sounds c' = getSound st.sounds c' := by
  simp [playSound, getSound_setSound_of_ne _ _ _ _ h]

theorem stopSound_getSound_self (st : Engine) (c : Channel) :
    getSound (stopSound st c).sounds c = { playing := false, nodes := [] } := by
  simp [stopSound, getSound_setSound_self]

theorem stopSound_getSound_of_ne (st : Engine) (c c' : Channel) (h : c' ≠ c) :
    getSound (stopSound st c).sounds c' = getSound st.sounds c' := by
  simp [stopSound, getSound_setSound_of_ne _ _ _ _ h]

theorem playSound_currentPlayingSound (env : VolumeEnv) (st : Engine) (c : Channel) :
    (playSound env st c).currentPlayingSound = st.currentPlayingSound := rfl

theorem stopSound_currentPlayingSound (st : Engine) (c : Channel) :
    (stopSound st c).currentPlayingSound = st.currentPlayingSound := rfl

theorem toggleSound_currentPlayingSound (env : VolumeEnv) (st : Engine) (c : Channel) :
    ((toggleSound env st c).1).currentPlayingSound = st.currentPlayingSound := by
  cases h : (getSound st.sounds c).playing <;>
    simp [toggleSound, h, stopSound, playSound]

theorem playGraph_nodes_ne_nil (env : VolumeEnv) (c : Channel) :
    (playGraph env c).nodes ≠ [] := by
  cases c <;> simp [playGraph, createRainSound, createBinauralBeat]

theorem toggleSound_of_stopped (env : VolumeEnv) (st : Engine) (c : Channel)
    (h : (getSound st.sounds c).playing = false) :
    toggleSound env st c = (playSound env st c, true) := by
  simp [toggleSound, h, playSound_getSound_self]

theorem toggleSound_of_playing (env : VolumeEnv) (st : Engine) (c : Channel)
    (h : (getSound st.sounds c).playing = true) :
    toggleSound env st c = (stopSound st c, false) := by
  simp [toggleSound, h, stopSound_getSound_self]

/-! ## Lemmas about the stop-all and pause loops -/

theorem stopIfPlaying_playing_false (s : Engine) (n c : Channel)
    (h : (getSound s.sounds c).playing = false) :
    (getSound (stopIfPlaying s n).sounds c).playing = false := by
  unfold stopIfPlaying
  by_cases hc : c = n
  · subst hc
    split
    · simp [stopSound_getSound_self]
    · exact h
  · split
    · rw [stopSound_getSound_of_ne _ _ _ hc]; exact h
    · exact h

theorem stopIfPlaying_self_false (s : Engine) (c : Channel) :
    (getSound (stopIfPlaying s c).sounds c).playing = false := by
  unfold stopIfPlaying
  split
  · simp [stopSound_getSound_self]
  · next hcond => simpa using hcond

theorem foldl_stopIfPlaying_false (l : List Channel) (s : Engine) (c : Channel)
    (h : (getSound s.sounds c).playing = false) :
    (getSound (l.foldl stopIfPlaying s).sounds c).playing = false := by
  induction l generalizing s with
  | nil => exact h
  | cons n l ih => exact ih _ (stopIfPlaying_playing_false s n c h)

theorem foldl_stopIfPlaying_mem (l : List Channel) (c : Channel) :
    c ∈ l → ∀ s : Engine,
      (getSound (l.foldl stopIfPlaying s).sounds c).playing = false := by
  induction l with
  | nil => intro hmem; cases hmem
  | cons n l ih =>
    intro hmem s
    rcases List.mem_cons.mp hmem with h | h
    · subst h
      exact foldl_stopIfPlaying_false l _ c (stopIfPlaying_self_false s c)
    · exact ih h _

theorem pauseStep_playing_false (s : Engine) (n c : Channel)
    (h : (getSound s.sounds c).playing = false) :
    (getSound (pauseStep s n).sounds c).playing = false := by
  unfold pauseStep
  by_cases hc : c = n
  · subst hc
    split
    · simp [stopSound_getSound_self]
    · exact h
  · split
    · rw [stopSound_getSound_of_ne _ _ _ hc]; exact h
    · exact h

/-! ## Invariant-preservation lemmas -/

theorem engineInv_playSound (env : VolumeEnv) (st : Engine) (c : Channel)
    (h : engineInv st) : engineInv (playSound env st c) := by
  intro c'
  by_cases hc : c' = c
  · subst hc
    rw [playSound_getSound_self]
    simp [soundInv, List.append_eq_nil, playGraph_nodes_ne_nil env c']
  · rw [playSound_getSound_of_ne _ _ _ _ hc]
    exact h c'

theorem engineInv_stopSound (st : Engine) (c : Channel)
    (h : engineInv st) : engineInv (stopSound st c) := by
  intro c'
  by_cases hc : c' = c
  · subst hc
    rw [stopSound_getSound_self]
    simp [soundInv]
  · rw [stopSound_getSound_of_ne _ _ _ hc]
    exact h c'

theorem engineInv_currentUpdate (st : Engine) (x : Option Channel)
    (h : engineInv st) : engineInv { st with currentPlayingSound := x } := h

theorem engineInv_toggleSound (env : VolumeEnv) (st : Engine) (c : Channel)
    (h : engineInv st) : engineInv (toggleSound env st c).1 := by
  cases hb : (getSound st.sounds c).playing
  · simpa [toggleSound_of_stopped env st c hb] using engineInv_playSound env st c h
  · simpa [toggleSound_of_playing env st c hb] using engineInv_stopSound st c h

theorem engineInv_stopIfPlaying (s : Engine) (n : Channel)
    (h : engineInv s) : engineInv (stopIfPlaying s n) := by
  unfold stopIfPlaying
  split
  · exact engineInv_stopSound _ _ h
  · exact h

theorem engineInv_pauseStep (s : Engine) (n : Channel)
    (h : engineInv s) : engineInv (pauseStep s n) := by
  unfold pauseStep
  split
  · exact engineInv_stopSound _ _ (engineInv_currentUpdate _ _ h)
  · exact h

theorem engineInv_foldl_stopIfPlaying (l : List Channel) :
    ∀ s : Engine, engineInv s → engineInv (l.foldl stopIfPlaying s) := by
  induction l with
  | nil => intro s h; exact h
  | cons n l ih => intro s h; exact ih _ (engineInv_stopIfPlaying s n h)

theorem engineInv_foldl_pauseStep (l : List Channel) :
    ∀ s : Engine, engineInv s → engineInv (l.foldl pauseStep s) := by
  induction l with
  | nil => intro s h; exact h
  | cons n l ih => intro s h; exact ih _ (engineInv_pauseStep s n h)

theorem engineInv_stopAllSounds (st : Engine) (h : engineInv st) :
    engineInv (stopAllSounds st) := by
  simp only [stopAllSounds]
  exact engineInv_currentUpdate _ _ (engineInv_foldl_stopIfPlaying _ _ h)

theorem engineInv_pauseSounds (st : Engine) (h : engineInv st) :
    engineInv (pauseSounds st) :=
  engineInv_foldl_pauseStep _ _ h

theorem engineInv_resumeSounds (env : VolumeEnv) (st : Engine) (h : engineInv st) :
    engineInv (resumeSounds env st).1 := by
  cases hm : st.currentPlayingSound with
  | none => simpa [resumeSounds, hm] using h
  | some c => simpa [resumeSounds, hm] using engineInv_toggleSound env st c h

theorem engineInv_setVolume (st : Engine) (c : Channel) (p : ℚ)
    (h : engineInv st) : engineInv (setVolume st c p) := by
  simp only [setVolume]
  split
  · next hcond =>
    split
    · next v heq =>
      intro c'
      by_cases hc : c' = c
      · subst hc
        rw [getSound_setSound_self]
        simp [soundInv, hcond.1, List.append_eq_nil]
      · rw [getSound_setSound_of_ne _ _ _ _ hc]
        exact h c'
    · exact h
  · exact h

theorem setSound_setSound (s : Sounds) (c : Channel) (v w : SoundState) :
    setSound (setSound s c v) c w = setSound s c w := by
  cases c <;> rfl

theorem mem_channelList (c : Channel) : c ∈ channelList := by
  cases c <;> decide

theorem pauseSounds_noop (st : Engine)
    (h : ∀ c', (getSound st.sounds c').playing = false) :
    pauseSounds st = st := by
  have h1 : st.sounds.rain.playing = false := h .rain
  have h2 : st.sounds.alpha.playing = false := h .alpha
  have h3 : st.sounds.theta.playing = false := h .theta
  have h4 : st.sounds.beta.playing = false := h .beta
  have h5 : st.sounds.gamma.playing = false := h .gamma
  simp [pauseSounds, channelList, pauseStep, getSound, h1, h2, h3, h4, h5]

theorem pauseSounds_single (st : Engine) (c : Channel)
    (hc : (getSound st.sounds c).playing = true)
    (ho : ∀ c', c' ≠ c → (getSound st.sounds c').playing = false) :
    pauseSounds st =
      { sounds := setSound st.sounds c { playing := false, nodes := [] },
        currentPlayingSound := some c } := by
  cases c with
  | rain =>
    have h1 : st.sounds.rain.playing = true := hc
    have h2 : st.sounds.alpha.playing = false := ho .alpha (by decide)
    have h3 : st.sounds.theta.playing = false := ho .theta (by decide)
    have h4 : st.sounds.beta.playing = false := ho .beta (by decide)
    have h5 : st.sounds.gamma.playing = false := ho .gamma (by decide)
    simp [pauseSounds, channelList, pauseStep, stopSound, getSound, setSound,
      h1, h2, h3, h4, h5]
  | alpha =>
    have h1 : st.sounds.rain.playing = false := ho .rain (by decide)
    have h2 : st.sounds.alpha.playing = true := hc
    have h3 : st.sounds.theta.playing = false := ho .theta (by decide)
    have h4 : st.sounds.beta.playing = false := ho .beta (by decide)
    have h5 : st.sounds.gamma.playing = false := ho .gamma (by decide)
    simp [pauseSounds, channelList, pauseStep, stopSound, getSound, setSound,
      h1, h2, h3, h4, h5]
  | theta =>
    have h1 : st.sounds.rain.playing = false := ho .rain (by decide)
    have h2 : st.sounds.alpha.playing = false := ho .alpha (by decide)
    have h3 : st.sounds.theta.playing = true := hc
    have h4 : st.sounds.beta.playing = false := ho .beta (by decide)
    have h5 : st.sounds.gamma.playing = false := ho .gamma (by decide)
    simp [pauseSounds, channelList, pauseStep, stopSound, getSound, setSound,
      h1, h2, h3, h4, h5]
  | beta =>
    have h1 : st.sounds.rain.playing = false := ho .rain (by decide)
    have h2 : st.sounds.alpha.playing = false := ho .alpha (by decide)
    have h3 : st.sounds.theta.playing = false := ho .theta (by decide)
    have h4 : st.sounds.beta.playing = true := hc
    have h5 : st.sounds.gamma.playing = false := ho .gamma (by decide)
    simp [pauseSounds, channelList, pauseStep, stopSound, getSound, setSound,
      h1, h2, h3, h4, h5]
  | gamma =>
    have h1 : st.sounds.rain.playing = false := ho .rain (by decide)
    have h2 : st.sounds.alpha.playing = false := ho .alpha (by decide)
    have h3 : st.sounds.theta.playing = false := ho .theta (by decide)
    have h4 : st.sounds.beta.playing = false := ho .beta (by decide)
    have h5 : st.sounds.gamma.playing = true := hc
    simp [pauseSounds, channelList, pauseStep, stopSound, getSound, setSound,
      h1, h2, h3, h4, h5]

theorem rainFilter_abs_le_one (x : ℕ → ℚ) (hx : ∀ i, |x i| ≤ 1) :
    ∀ n, |rainFilter x n| ≤ 1 := by
  intro n
  induction n with
  | zero => simp [rainFilter]
  | succ n ih =>
    have hxi := hx (n + 1)
    have habs : |rainFilter x n + 0.02 * x (n + 1)| ≤ 1.02 := by
      have h1 : |rainFilter x n + 0.02 * x (n + 1)|
          ≤ |rainFilter x n| + |0.02 * x (n + 1)| := abs_add _ _
      have h2 : |0.02 * x (n + 1)| = 0.02 * |x (n + 1)| := by
        rw [abs_mul]
        norm_num
      nlinarith [ih, hxi]
    simp only [rainFilter, rainStep]
    rw [abs_div]
    have h102 : |(1.02 : ℚ)| = 1.02 := by norm_num
    rw [h102, div_le_one (by norm_num)]
    linarith [habs]

/-! ## Claim theorems -/

/-- C1: the claim says the gain of a freshly started binaural channel is
`0.2 * (that channel's own requested volume / 100)`.  The code instead
reads the theta slider for the beta and gamma channels
(`sound === this.sounds.alpha ? 'alpha' : 'theta'`): starting beta with
the beta slider at 50 and the theta slider at 30 produces gain
`0.2 * 30/100`, not `0.2 * 50/100`.  This theorem evaluates the code at
that failing input. -/
theorem C1_beta_gain_reads_theta_slider :
    (getSound (playSound c1env initEngine Channel.beta).sounds Channel.beta).nodes
        = [Node.oscillator 200 "sine", Node.oscillator (200 + 20) "sine",
           Node.stereoPanner (-1), Node.stereoPanner 1,
           Node.gain ((30 : ℚ) / 100 * 0.2)] ∧
    ((30 : ℚ) / 100 * 0.2) ≠ ((50 : ℚ) / 100 * 0.2) := by
  constructor
  · simp [playSound, playGraph, createBinauralBeat, getSound, setSound,
      initEngine, c1env, getVolume]
  · norm_num

/-- C3 counterexample: reachable state in which the "last played" memory
records rain while rain is already playing (start rain, pause all, start
rain again by hand); `resumeSounds` then calls `toggleSound`, which
stops the remembered channel instead of leaving it playing — refuting
"the remembered channel is playing after the call, regardless of whether
it was already playing before the call". -/
theorem C3_resume_stops_playing_channel :
    ((toggleSound defaultEnv
        (pauseSounds (toggleSound defaultEnv initEngine Channel.rain).1)
        Channel.rain).1.currentPlayingSound = some Channel.rain) ∧
    (getSound (toggleSound defaultEnv
        (pauseSounds (toggleSound defaultEnv initEngine Channel.rain).1)
        Channel.rain).1.sounds Channel.rain).playing = true ∧
    (getSound (resumeSounds defaultEnv
        (toggleSound defaultEnv
          (pauseSounds (toggleSound defaultEnv initEngine Channel.rain).1)
          Channel.rain).1).1.sounds Channel.rain).playing = false := by
  decide

/-- C3 (amended): when a "last played" channel is recorded, `resumeSounds`
toggles it: a stopped remembered channel becomes playing (equivalent to
start), an already-playing one becomes stopped, and the resulting
playing state is reported to the status display. -/
theorem C3_resume_toggles_remembered (env : VolumeEnv) (st : Engine) (c : Channel)
    (h : st.currentPlayingSound = some c) :
    (getSound (resumeSounds env st).1.sounds c).playing
        = !(getSound st.sounds c).playing ∧
    ((getSound st.sounds c).playing = false →
      (getSound (resumeSounds env st).1.sounds c).playing = true) ∧
    (resumeSounds env st).2
        = some ((getSound (resumeSounds env st).1.sounds c).playing) := by
  cases hb : (getSound st.sounds c).playing
  · have ht := toggleSound_of_stopped env st c hb
    simp [resumeSounds, h, ht, playSound_getSound_self]
  · have ht := toggleSound_of_playing env st c hb
    simp [resumeSounds, h, ht, stopSound_getSound_self, hb]

/-- Witness for C3 (amended) at a concrete state: fresh engine whose
memory records rain while rain is stopped. -/
theorem C3_resume_toggles_remembered_witness :
    rainRemembered.currentPlayingSound = some Channel.rain ∧
    ((getSound (resumeSounds defaultEnv rainRemembered).1.sounds Channel.rain).playing
        = !(getSound rainRemembered.sounds Channel.rain).playing ∧
    ((getSound rainRemembered.sounds Channel.rain).playing = false →
      (getSound (resumeSounds defaultEnv rainRemembered).1.sounds Channel.rain).playing
          = true) ∧
    (resumeSounds defaultEnv rainRemembered).2
        = some ((getSound (resumeSounds defaultEnv rainRemembered).1.sounds
            Channel.rain).playing)) :=
  ⟨rfl, C3_resume_toggles_remembered defaultEnv rainRemembered Channel.rain rfl⟩

/-- C6: under the leaky-integrator recurrence
`y[n] = (y[n-1] + 0.02*x[n]) / 1.02` with inputs in `[-1, 1]` and
`y[0] = 0`, the filter state satisfies `|y[n]| ≤ 1.01` for all `n`. -/
theorem C6_rain_filter_bounded (x : ℕ → ℚ) (hx : ∀ i, |x i| ≤ 1) (n : ℕ) :
    |rainFilter x n| ≤ 1.01 := by
  have h := rainFilter_abs_le_one x hx n
  have h2 : (1 : ℚ) ≤ 1.01 := by norm_num
  linarith

/-- Witness for C6 at the constant input stream `1` after 5 steps. -/
theorem C6_rain_filter_bounded_witness :
    (∀ i : ℕ, |(fun _ : ℕ => (1 : ℚ)) i| ≤ 1) ∧
    |rainFilter (fun _ : ℕ => (1 : ℚ)) 5| ≤ 1.01 :=
  ⟨fun _ => by norm_num,
   C6_rain_filter_bounded (fun _ : ℕ => (1 : ℚ)) (fun _ => by norm_num) 5⟩

/-- C7: for each binaural channel with its beat frequency (alpha 10,
theta 6, beta 20, gamma 40), starting the channel builds exactly two
sine oscillators — left at 200 Hz, right at `200 + f` Hz, so the
difference is exactly `f` — with the left oscillator connected to the
pan `-1` panner and the right to the pan `+1` panner. -/
theorem C7_binaural_construction (env : VolumeEnv) :
    binauralBuildSpec (playGraph env Channel.alpha) 10 ∧
    binauralBuildSpec (playGraph env Channel.theta) 6 ∧
    binauralBuildSpec (playGraph env Channel.beta) 20 ∧
    binauralBuildSpec (playGraph env Channel.gamma) 40 := by
  refine ⟨?_, ?_, ?_, ?_⟩ <;>
    simp [binauralBuildSpec, playGraph, createBinauralBeat, Node.isOscillator]

/-- C8: toggling a stopped channel twice returns `true` then `false` and
leaves the channel stopped with an empty node list. -/
theorem C8_toggle_twice (env : VolumeEnv) (st : Engine) (c : Channel)
    (h : (getSound st.sounds c).playing = false) :
    (toggleSound env st c).2 = true ∧
    (toggleSound env (toggleSound env st c).1 c).2 = false ∧
    (getSound (toggleSound env (toggleSound env st c).1 c).1.sounds c).playing = false ∧
    (getSound (toggleSound env (toggleSound env st c).1 c).1.sounds c).nodes = [] := by
  have h1 := toggleSound_of_stopped env st c h
  have hplay : (getSound (playSound env st c).sounds c).playing = true := by
    rw [playSound_getSound_self]
  have h2 := toggleSound_of_playing env (playSound env st c) c hplay
  simp [h1, h2, stopSound_getSound_self]

/-- Witness for C8 on the fresh engine's rain channel. -/
theorem C8_toggle_twice_witness :
    (getSound initEngine.sounds Channel.rain).playing = false ∧
    ((toggleSound defaultEnv initEngine Channel.rain).2 = true ∧
    (toggleSound defaultEnv (toggleSound defaultEnv initEngine Channel.rain).1
        Channel.rain).2 = false ∧
    (getSound (toggleSound defaultEnv
        (toggleSound defaultEnv initEngine Channel.rain).1
        Channel.rain).1.sounds Channel.rain).playing = false ∧
    (getSound (toggleSound defaultEnv
        (toggleSound defaultEnv initEngine Channel.rain).1
        Channel.rain).1.sounds Channel.rain).nodes = []) :=
  ⟨rfl, C8_toggle_twice defaultEnv initEngine Channel.rain rfl⟩

/-- C9: `setVolume` on a stopped channel raises no error and changes
nothing (the model function is total and returns the state unchanged);
consequently starting the channel afterwards behaves exactly as if the
call had never happened, the gain being read from the volume source at
start time. -/
theorem C9_setVolume_stopped_noop (st : Engine) (c : Channel) (p : ℚ)
    (h : (getSound st.sounds c).playing = false) :
    setVolume st c p = st ∧
    ∀ env, playSound env (setVolume st c p) c = playSound env st c := by
  have hmain : setVolume st c p = st := by
    simp [setVolume, h]
  exact ⟨hmain, fun env => by rw [hmain]⟩

/-- Witness for C9 on the fresh engine's rain channel at percent 55. -/
theorem C9_setVolume_stopped_noop_witness :
    (getSound initEngine.sounds Channel.rain).playing = false ∧
    (setVolume initEngine Channel.rain 55 = initEngine ∧
    ∀ env, playSound env (setVolume initEngine Channel.rain 55) Channel.rain
        = playSound env initEngine Channel.rain) :=
  ⟨rfl, C9_setVolume_stopped_noop initEngine Channel.rain 55 rfl⟩

/-- C2: from a state where exactly one channel is playing, `pauseSounds`
followed immediately by `resumeSounds` leaves that channel playing and
every other channel stopped. -/
theorem C2_pause_then_resume_restores (env : VolumeEnv) (st : Engine) (c : Channel)
    (hc : (getSound st.sounds c).playing = true)
    (ho : ∀ c', c' ≠ c → (getSound st.sounds c').playing = false) :
    (getSound (resumeSounds env (pauseSounds st)).1.sounds c).playing = true ∧
    ∀ c', c' ≠ c →
      (getSound (resumeSounds env (pauseSounds st)).1.sounds c').playing = false := by
  rw [pauseSounds_single st c hc ho]
  have hstop : (getSound
      ({ sounds := setSound st.sounds c { playing := false, nodes := [] },
         currentPlayingSound := some c } : Engine).sounds c).playing = false := by
    simp [getSound_setSound_self]
  have ht := toggleSound_of_stopped env
      { sounds := setSound st.sounds c { playing := false, nodes := [] },
        currentPlayingSound := some c } c hstop
  constructor
  · simp [resumeSounds, ht, playSound_getSound_self]
  · intro c' hne
    simp only [resumeSounds]
    simp [ht]
    rw [playSound_getSound_of_ne _ _ _ _ hne]
    simp [getSound_setSound_of_ne _ _ _ _ hne]
    exact ho c' hne

/-- Witness for C2: exactly the rain channel playing. -/
theorem C2_pause_then_resume_restores_witness :
    ((getSound rainPlaying.sounds Channel.rain).playing = true ∧
     ∀ c', c' ≠ Channel.rain → (getSound rainPlaying.sounds c').playing = false) ∧
    ((getSound (resumeSounds defaultEnv (pauseSounds rainPlaying)).1.sounds
        Channel.rain).playing = true ∧
     ∀ c', c' ≠ Channel.rain →
       (getSound (resumeSounds defaultEnv (pauseSounds rainPlaying)).1.sounds
           c').playing = false) :=
  ⟨⟨rfl, by decide⟩,
   C2_pause_then_resume_restores defaultEnv rainPlaying Channel.rain rfl (by decide)⟩

/-- C4: after `stopAllSounds` every channel is stopped and the "last
played" memory is cleared, so a following `resumeSounds` changes nothing
and reports nothing. -/
theorem C4_stopAll_clears (env : VolumeEnv) (st : Engine) :
    (∀ c, (getSound (stopAllSounds st).sounds c).playing = false) ∧
    (stopAllSounds st).currentPlayingSound = none ∧
    resumeSounds env (stopAllSounds st) = (stopAllSounds st, none) := by
  have hnone : (stopAllSounds st).currentPlayingSound = none := rfl
  refine ⟨?_, hnone, ?_⟩
  · intro c
    exact foldl_stopIfPlaying_mem channelList c (mem_channelList c) st
  · simp [resumeSounds, hnone]

/-- C5: the invariant "playing iff the node list is non-empty" holds in
the fresh engine, is established by `playSound` (playing, non-empty) and
`stopSound` (stopped, empty, and idempotent), and is preserved by every
engine operation. -/
theorem C5_state_invariant :
    engineInv initEngine ∧
    (∀ env st c, (getSound (playSound env st c).sounds c).playing = true ∧
      (getSound (playSound env st c).sounds c).nodes ≠ []) ∧
    (∀ st c, (getSound (stopSound st c).sounds c).playing = false ∧
      (getSound (stopSound st c).sounds c).nodes = []) ∧
    (∀ st c, stopSound (stopSound st c) c = stopSound st c) ∧
    (∀ env st c, engineInv st → engineInv (toggleSound env st c).1) ∧
    (∀ env st c, engineInv st → engineInv (playSound env st c)) ∧
    (∀ st c, engineInv st → engineInv (stopSound st c)) ∧
    (∀ st, engineInv st → engineInv (stopAllSounds st)) ∧
    (∀ st, engineInv st → engineInv (pauseSounds st)) ∧
    (∀ env st, engineInv st → engineInv (resumeSounds env st).1) ∧
    (∀ st c p, engineInv st → engineInv (setVolume st c p)) := by
  refine ⟨?_, ?_, ?_, ?_, engineInv_toggleSound, engineInv_playSound,
    engineInv_stopSound, engineInv_stopAllSounds, engineInv_pauseSounds,
    engineInv_resumeSounds, engineInv_setVolume⟩
  · intro c
    cases c <;> simp [engineInv, soundInv, initEngine, getSound]
  · intro env st c
    rw [playSound_getSound_self]
    exact ⟨rfl, by simp [List.append_eq_nil, playGraph_nodes_ne_nil env c]⟩
  · intro st c
    rw [stopSound_getSound_self]
    exact ⟨rfl, rfl⟩
  · intro st c
    simp [stopSound, setSound_setSound]

/-- Witness for C5 at a concrete state and operation. -/
theorem C5_state_invariant_witness :
    engineInv initEngine ∧ engineInv (setVolume initEngine Channel.rain 50) := by
  have h0 : engineInv initEngine := by
    intro c
    cases c <;> simp [engineInv, soundInv, initEngine, getSound]
  exact ⟨h0, C5_state_invariant.2.2.2.2.2.2.2.2.2.2 initEngine Channel.rain 50 h0⟩

/-- C10: with nothing playing, `pauseSounds` is the identity (the memory
survives); stopping a channel — directly or through `toggleSound` —
never touches the memory; hence pause-all followed by resume-last starts
the remembered channel even though it was toggled off before the
pause. -/
theorem C10_memory_survives (env : VolumeEnv) (st : Engine) (c : Channel)
    (hstopped : ∀ c', (getSound st.sounds c').playing = false)
    (hmem : st.currentPlayingSound = some c) :
    pauseSounds st = st ∧
    (∀ st' c'', (stopSound st' c'').currentPlayingSound = st'.currentPlayingSound) ∧
    (∀ (env' : VolumeEnv) st' c'',
      ((toggleSound env' st' c'').1).currentPlayingSound = st'.currentPlayingSound) ∧
    (getSound (resumeSounds env (pauseSounds st)).1.sounds c).playing = true := by
  have hno : pauseSounds st = st := pauseSounds_noop st hstopped
  refine ⟨hno, fun st' c'' => rfl, toggleSound_currentPlayingSound, ?_⟩
  rw [hno]
  have ht := toggleSound_of_stopped env st c (hstopped c)
  simp [resumeSounds, hmem, ht, playSound_getSound_self]

/-- Witness for C10: fresh engine remembering rain with all channels
stopped. -/
theorem C10_memory_survives_witness :
    (∀ c', (getSound rainRemembered.sounds c').playing = false) ∧
    rainRemembered.currentPlayingSound = some Channel.rain ∧
    (pauseSounds rainRemembered = rainRemembered ∧
     (∀ st' c'', (stopSound st' c'').currentPlayingSound = st'.currentPlayingSound) ∧
     (∀ (env' : VolumeEnv) st' c'',
       ((toggleSound env' st' c'').1).currentPlayingSound = st'.currentPlayingSound) ∧
     (getSound (resumeSounds defaultEnv (pauseSounds rainRemembered)).1.sounds
         Channel.rain).playing = true) :=
  ⟨by decide, rfl,
   C10_memory_survives defaultEnv rainRemembered Channel.rain (by decide) rfl⟩
